import Mathlib

/-!
Verification development for the node-nsapi request scheduler and cache
(`src/api.ts`, class `NsApi`, v0.2.0, plus the v0.1.0 `Api` class callback
handlers). Machine integers of the source (JS numbers used as millisecond
timestamps and delays) are modelled as `Int`; JS object references for the
mutable cached payloads are modelled by an explicit heap (`List Int` of
mutable cells indexed by allocation order). Network I/O is modelled by
passing the observed outcome (status code / connection error / fetched
payload) as an explicit argument to the completion functions that the
source installs as callbacks.
-/

/-- The telegram type for rate limit purposes (source `enum TelegramType`,
v0.2.0: `Recruitment`, `NonRecruitment`). -/
inductive TelegramType
  | Recruitment
  | NonRecruitment
deriving DecidableEq, Repr

/-- One entry of `NsApi._queue`: the source pushes `{tg, func, reject}`;
the closures `func`/`reject` are identified by a numeric completion id. -/
structure QueuedRequest where
  tg : Option TelegramType
  id : Nat
deriving DecidableEq, Repr

/-- One entry of `NsApi._cache`: `{time: number, data: any}`, where `data`
is a reference to the decoded JSON object (a heap cell index here). -/
structure CacheEntry where
  time : Int
  data : Nat
deriving DecidableEq, Repr

/-- `Auth` interface of the source (only its shape matters here: the cache
logic of `xmlRequest` never reads it). -/
structure Auth where
  password : Option String := none
  pin : Option String := none
  updatePin : Bool := false
  autologin : Option String := none
  updateAutologin : Bool := false
deriving DecidableEq, Repr

/-- The mutable fields of one `NsApi` instance (source lines 693-720). -/
structure NsState where
  userAgent : String
  delay : Bool
  apiDelayMillis : Int
  recruitTgDelayMillis : Int
  nonRecruitTgDelayMillis : Int
  queue : List QueuedRequest
  lastRequestTime : Int
  lastTgTime : Int
  requestInProgress : Bool
  blockExistingRequests : Bool
  blockNewRequests : Bool
  cleanupCalled : Bool
  intervalActive : Bool
  cacheApiRequests : Bool
  cacheTime : Int
  cache : List (String × CacheEntry)
  heap : List Int
deriving DecidableEq, Repr

/-- Field-initializer values of the class (source lines 693-720): note the
initializers give `_recruitTgDelayMillis = 60000` and
`_nonRecruitTgDelayMillis = 180000`. -/
def initState : NsState :=
  { userAgent := ""
    delay := true
    apiDelayMillis := 600
    recruitTgDelayMillis := 60000
    nonRecruitTgDelayMillis := 180000
    queue := []
    lastRequestTime := 0
    lastTgTime := 0
    requestInProgress := false
    blockExistingRequests := false
    blockNewRequests := false
    cleanupCalled := false
    intervalActive := false
    cacheApiRequests := true
    cacheTime := 900
    cache := []
    heap := [] }

/-- Why a request's completion was rejected (the various `Error`s the
source constructs). -/
inductive RejectReason
  | apiError
  | transportError
  | cancelledClearQueue
  | blockedNew
  | cleanupCalled
deriving DecidableEq, Repr

/-- Outcome delivered on a completion handle. -/
inductive ReqOutcome
  | resolved
  | rejected (r : RejectReason)
deriving DecidableEq, Repr

/-- The `exec` flag computed by one throttled tick for the head-of-queue
request (source lines 1208-1225): the general cadence floor first, then
the per-category telegram floor against the shared `_lastTgTime`. -/
def execCond (s : NsState) (now : Int) (nextReq : QueuedRequest) : Bool :=
  if now - s.lastRequestTime > s.apiDelayMillis then
    match nextReq.tg with
    | some TelegramType.Recruitment =>
      decide (now - s.lastTgTime > s.recruitTgDelayMillis)
    | some TelegramType.NonRecruitment =>
      decide (now - s.lastTgTime > s.nonRecruitTgDelayMillis)
    | none => true
  else false

/-- One tick of the throttled scheduler (source `initInterval`, `delay`
branch, lines 1199-1232): inspect the head, compute `exec` from the elapsed
times, and on success mark a request in progress, dispatch the head and
shift the queue. The dispatched head (if any) is returned alongside the new
state. -/
def tickThrottled (s : NsState) (now : Int) : NsState × Option QueuedRequest :=
  if s.requestInProgress ∨ s.queue = [] ∨ s.blockExistingRequests then
    (s, none)
  else
    match s.queue with
    | [] => (s, none)
    | nextReq :: rest =>
      if execCond s now nextReq then
        ({ s with requestInProgress := true, queue := rest }, some nextReq)
      else (s, none)

/-- One tick of the unthrottled scheduler (source `initInterval`, no-delay
branch, lines 1234-1243): shift and dispatch the head with no timing
checks. -/
def tickUnthrottled (s : NsState) : NsState × Option QueuedRequest :=
  if s.queue = [] ∨ s.blockExistingRequests then
    (s, none)
  else
    match s.queue with
    | [] => (s, none)
    | nextReq :: rest => ({ s with queue := rest }, some nextReq)

/-- The `response.on("end", ...)` completion handler of `apiRequest`
(source lines 1395-1434): clear the in-progress flag, stamp
`_lastRequestTime`, stamp the shared `_lastTgTime` when the request was a
telegram of either type, then resolve on status 200 and reject
otherwise. -/
def onResponseEnd (s : NsState) (now : Int) (tg : Option TelegramType)
    (status : Int) : NsState × ReqOutcome :=
  let s1 := { s with requestInProgress := false, lastRequestTime := now }
  let s2 := if tg.isSome then { s1 with lastTgTime := s1.lastRequestTime } else s1
  if status = 200 then (s2, ReqOutcome.resolved)
  else (s2, ReqOutcome.rejected RejectReason.apiError)

/-- The `.on("error", reject)` handler of `apiRequest` (source line 1436):
it only rejects the promise; no instance field is touched. -/
def onRequestError (s : NsState) : NsState × ReqOutcome :=
  (s, ReqOutcome.rejected RejectReason.transportError)

/-- Result of the promise executor of `apiRequest` (source lines
1356-1439): a synchronous rejection, or the request appended to the
queue. -/
inductive SubmitResult
  | queued (s : NsState)
  | rejectedSync (r : RejectReason)
deriving DecidableEq, Repr

/-- Submission path of `apiRequest` (source lines 1356-1365 and 1438):
throw if `blockNewRequests`, throw if `cleanup` has been called, otherwise
push `{tg, func, reject}` onto the queue. -/
def apiRequestSubmit (s : NsState) (tg : Option TelegramType) (id : Nat) :
    SubmitResult :=
  if s.blockNewRequests then SubmitResult.rejectedSync RejectReason.blockedNew
  else if s.cleanupCalled then
    SubmitResult.rejectedSync RejectReason.cleanupCalled
  else SubmitResult.queued { s with queue := s.queue ++ [⟨tg, id⟩] }

/-- `clearQueue` (source lines 908-913): pop from the tail until empty,
rejecting each completion with the cancellation error. The list of
(completion id, reason) rejections is returned. -/
def clearQueue (s : NsState) : NsState × List (Nat × RejectReason) :=
  ({ s with queue := [] },
   s.queue.reverse.map (fun r => (r.id, RejectReason.cancelledClearQueue)))

/-- `cleanup` (source lines 964-968): stop the interval, clear the queue,
set the `_cleanup` flag. -/
def cleanup (s : NsState) : NsState × List (Nat × RejectReason) :=
  let s1 := { s with intervalActive := false }
  let p := clearQueue s1
  ({ p.1 with cleanupCalled := true }, p.2)

/-- `initInterval` side effect on the modelled state: a (fresh) timer is
installed in both branches (source lines 1196-1245). -/
def initInterval (s : NsState) : NsState := { s with intervalActive := true }

/-- The `userAgent` setter's formatted string (source lines 777-784,
`VERSION = "0.2.0"`). -/
def userAgentString (userAgent : String) : String :=
  "node-nsapi 0.2.0 (maintained by Auralia, currently used by \"" ++
    userAgent ++ "\")"

/-- The `userAgent` setter (the `typeof` guard always passes for a
`String`). -/
def setUserAgent (s : NsState) (ua : String) : NsState :=
  { s with userAgent := userAgentString ua }

/-- The `delay` setter (source lines 799-802): stores the flag and
re-initializes the scheduler. -/
def setDelay (s : NsState) (d : Bool) : NsState :=
  initInterval { s with delay := d }

/-- The `apiDelayMillis` setter (source lines 815-821): `RangeError` when
the argument is below 600, otherwise store it. -/
def setApiDelayMillis (s : NsState) (v : Int) : Except String NsState :=
  if v < 600 then
    Except.error ("API delay must be greater than or equal to 600")
  else Except.ok { s with apiDelayMillis := v }

/-- The `nonRecruitTgDelayMillis` setter (source lines 834-841):
`RangeError` when the argument is below 60000. -/
def setNonRecruitTgDelayMillis (s : NsState) (v : Int) : Except String NsState :=
  if v < 60000 then
    Except.error ("Non-recruitment telegram delay must be greater than or equal to 60000")
  else Except.ok { s with nonRecruitTgDelayMillis := v }

/-- The `recruitTgDelayMillis` setter (source lines 854-861): `RangeError`
when the argument is below 180000. -/
def setRecruitTgDelayMillis (s : NsState) (v : Int) : Except String NsState :=
  if v < 180000 then
    Except.error ("Recruitment telegram delay must be greater than or equal to 180000")
  else Except.ok { s with recruitTgDelayMillis := v }

/-- The `cacheApiRequests` setter (source lines 925-927). -/
def setCacheApiRequests (s : NsState) (b : Bool) : NsState :=
  { s with cacheApiRequests := b }

/-- The `cacheTime` setter (source lines 939-945): `RangeError` when the
argument is not positive. -/
def setCacheTime (s : NsState) (v : Int) : Except String NsState :=
  if v ≤ 0 then Except.error ("Cache time must be greater than 0")
  else Except.ok { s with cacheTime := v }

/-- Options object of the constructor (`NsApiOptions`): absent fields are
`none`. -/
structure NsApiOptions where
  delay : Option Bool := none
  apiDelayMillis : Option Int := none
  nonRecruitTgDelayMillis : Option Int := none
  recruitTgDelayMillis : Option Int := none
  cacheApiRequests : Option Bool := none
  cacheTime : Option Int := none
  allowImmediateApiRequests : Option Bool := none
  allowImmediateTgRequests : Option Bool := none
deriving DecidableEq, Repr

/-- Apply an optional constructor option through a validating setter
(the constructor only invokes a setter when the option is defined). -/
def applyOpt (f : NsState → Int → Except String NsState) (o : Option Int)
    (s : NsState) : Except String NsState :=
  match o with
  | none => Except.ok s
  | some v => f s v

/-- The `NsApi` constructor (source lines 729-764): start from the field
initializers, run the setters for the supplied options in source order,
initialize the timestamps (the source tests `allowImmediateApiRequests`
for both timestamps), install the interval, then apply the cache
options. `now` is the value of `Date.now()` during construction. -/
def constructorBase (userAgent : String) (opts : NsApiOptions) : NsState :=
  match opts.delay with
  | some d => setDelay (setUserAgent initState userAgent) d
  | none => setUserAgent initState userAgent

/-- Tail of the constructor after the delay setters (source lines
744-763): timestamp initialization (the source tests
`allowImmediateApiRequests` for both timestamps), `initInterval`, then the
cache options. -/
def constructorFinish (opts : NsApiOptions) (now : Int) (s4 : NsState) :
    Except String NsState :=
  let s5 := { s4 with
    lastRequestTime :=
      if opts.allowImmediateApiRequests = some false then now
      else now - s4.apiDelayMillis
    lastTgTime :=
      if opts.allowImmediateApiRequests = some false then now
      else now - s4.recruitTgDelayMillis }
  let s6 := initInterval s5
  let s7 := match opts.cacheApiRequests with
    | some b => setCacheApiRequests s6 b
    | none => s6
  applyOpt setCacheTime opts.cacheTime s7

/-- The `NsApi` constructor (source lines 729-764): start from the field
initializers, run the `userAgent`/`delay` setters, run the validating
delay setters for the supplied options in source order, then the
timestamp/interval/cache tail. `now` is the value of `Date.now()` during
construction. -/
def NsApiNew (userAgent : String) (opts : NsApiOptions) (now : Int) :
    Except String NsState :=
  match applyOpt setApiDelayMillis opts.apiDelayMillis
      (constructorBase userAgent opts) with
  | Except.error e => Except.error e
  | Except.ok s2 =>
  match applyOpt setNonRecruitTgDelayMillis opts.nonRecruitTgDelayMillis
      s2 with
  | Except.error e => Except.error e
  | Except.ok s3 =>
  match applyOpt setRecruitTgDelayMillis opts.recruitTgDelayMillis s3 with
  | Except.error e => Except.error e
  | Except.ok s4 => constructorFinish opts now s4

/-- UTF-8 bytes of a code point, for percent-encoding. -/
def utf8Bytes (n : Nat) : List Nat :=
  if n < 128 then [n]
  else if n < 2048 then [192 + n / 64, 128 + n % 64]
  else if n < 65536 then
    [224 + n / 4096, 128 + (n / 64) % 64, 128 + n % 64]
  else
    [240 + n / 262144, 128 + (n / 4096) % 64, 128 + (n / 64) % 64,
     128 + n % 64]

/-- Upper-case hexadecimal digit. -/
def hexDigit (n : Nat) : Char :=
  if n < 10 then Char.ofNat (48 + n) else Char.ofNat (55 + n)

/-- Percent-encoding of one byte. -/
def percentEncodeByte (b : Nat) : String :=
  "%" ++ String.singleton (hexDigit (b / 16)) ++
    String.singleton (hexDigit (b % 16))

/-- Characters the ECMAScript `encodeURIComponent` leaves unescaped:
letters, digits and `- _ . ! ~ * ' ( )` (code points 45, 95, 46, 33, 126,
42, 39, 40, 41). -/
def isUnreservedURIChar (c : Char) : Bool :=
  decide ((65 ≤ c.toNat ∧ c.toNat ≤ 90) ∨ (97 ≤ c.toNat ∧ c.toNat ≤ 122) ∨
    (48 ≤ c.toNat ∧ c.toNat ≤ 57) ∨
    c.toNat ∈ [45, 95, 46, 33, 126, 42, 39, 40, 41])

/-- The ECMAScript `encodeURIComponent` builtin the source applies to every
shard and parameter. -/
def encodeURIComponent (s : String) : String :=
  String.join (s.data.map (fun c =>
    if isUnreservedURIChar c then String.singleton c
    else String.join ((utf8Bytes c.toNat).map percentEncodeByte)))

/-- `Array.prototype.sort()` with no comparator, as used on `shards` and
`Object.keys(globalParams)`: sort the strings lexicographically. -/
def sortStrings (l : List String) : List String :=
  List.insertionSort (fun a b => a ≤ b) l

/-- JS object access `globalParams[paramName]` (empty string when the key
is absent; the source only accesses keys that are present). -/
def listLookup (l : List (String × String)) (k : String) : String :=
  match l.find? (fun p => p.1 == k) with
  | some p => p.2
  | none => ""

/-- `API_VERSION` of the v0.2.0 revision. -/
def API_VERSION : Nat := 10

/-- The query string built by `xmlRequest` (source lines 1266-1285): when
shards are present, `q=` followed by the *sorted*, encoded shards joined
with `+`, then each shard parameter as `;name=value` *in insertion order*,
then `&`; then the global parameters with *sorted* keys, each as
`name=value&`; finally `v=10`. -/
def buildAllParams (shards : List String)
    (shardParams : List (String × String))
    (globalParams : List (String × String)) : String :=
  let p1 : String :=
    if shards.length ≠ 0 then
      "q=" ++
        String.intercalate ("+")
          ((sortStrings shards).map encodeURIComponent) ++
        String.join (shardParams.map (fun p =>
          ";" ++ encodeURIComponent p.1 ++ "=" ++ encodeURIComponent p.2)) ++
        "&"
    else ""
  let p2 := String.join ((sortStrings (globalParams.map Prod.fst)).map
    (fun n => encodeURIComponent n ++ "=" ++
      encodeURIComponent (listLookup globalParams n) ++ "&"))
  p1 ++ p2 ++ "v=" ++ toString API_VERSION

/-- `apiPath` of the v0.2.0 revision (source lines 1334-1339). -/
def apiPath (userAgent : String) (params : String) : String :=
  "/cgi-bin/api.cgi?userAgent=" ++ encodeURIComponent userAgent ++ "&" ++
    params

/-- Replace the first occurrence of a character (JS `String.replace` with a
string pattern replaces only the first match). -/
def replaceFirstChar (l : List Char) (pat rep : Char) : List Char :=
  match l with
  | [] => []
  | c :: cs => if c = pat then rep :: cs else c :: replaceFirstChar cs pat rep

/-- `NsApi.toId` (source lines 1450-1455): replace the first underscore
with a space, trim, lower-case, replace the first space with an
underscore. -/
def toId (name : String) : String :=
  let step1 := String.mk (replaceFirstChar name.data (Char.ofNat 95)
    (Char.ofNat 32))
  let step2 := step1.trim.toLower
  String.mk (replaceFirstChar step2.data (Char.ofNat 32) (Char.ofNat 95))

/-- Allocate a fresh payload cell (a new JS object produced by the XML
parser or by `clone`). -/
def heapAlloc (h : List Int) (v : Int) : List Int × Nat :=
  (h ++ [v], h.length)

/-- Read a payload cell. -/
def heapGet (h : List Int) (r : Nat) : Int := h.getD r 0

/-- Mutate a payload cell (what a caller does to the object it
received). -/
def heapSet (h : List Int) (r : Nat) (v : Int) : List Int := h.set r v

/-- `this._cache[uri]` read (JS object property access). -/
def cacheLookup (c : List (String × CacheEntry)) (uri : String) :
    Option CacheEntry :=
  match c.find? (fun p => p.1 == uri) with
  | some p => some p.2
  | none => none

/-- `this._cache[uri] = entry` (JS object property write). -/
def cacheStore (c : List (String × CacheEntry)) (uri : String)
    (e : CacheEntry) : List (String × CacheEntry) :=
  (uri, e) :: c.filter (fun p => ¬(p.1 == uri))

/-- Result of one `xmlRequest` as observed by the caller. -/
inductive XmlResult
  | cacheHit (r : Nat)
  | fetchedOk (r : Nat)
  | failed
deriving DecidableEq, Repr

/-- The fetch-then-store tail of `xmlRequest` (source lines 1300-1311):
`fetched = none` models a rejected `apiRequest`/`parseXml` (no store);
otherwise the parsed JSON object is allocated and, whenever
`cacheApiRequests` is set (regardless of `disableCache`), the *same
reference* is stored in the cache before being returned. -/
def xmlFetchAndStore (s : NsState) (uri : String) (now : Int)
    (fetched : Option Int) : NsState × XmlResult :=
  match fetched with
  | none => (s, XmlResult.failed)
  | some v =>
    let p := heapAlloc s.heap v
    let s1 := { s with heap := p.1 }
    let s2 :=
      if s1.cacheApiRequests then
        { s1 with cache := cacheStore s1.cache uri ⟨now, p.2⟩ }
      else s1
    (s2, XmlResult.fetchedOk p.2)

/-- The cache phase of `xmlRequest` (source lines 1289-1312): when caching
is enabled and not disabled for this request, a fresh entry is served as
`clone(entry.data)` (a newly allocated copy); otherwise the request is
fetched and stored. The `auth` argument is threaded exactly as in the
source: it is passed on to `apiRequest` (HTTP headers) and never read by
the cache logic. -/
def xmlRequestStep (s : NsState) (uri : String) (auth : Option Auth)
    (disableCache : Bool) (now : Int) (fetched : Option Int) :
    NsState × XmlResult :=
  if s.cacheApiRequests ∧ disableCache = false then
    match cacheLookup s.cache uri with
    | some entry =>
      if (now - entry.time) / 1000 < s.cacheTime then
        let p := heapAlloc s.heap (heapGet s.heap entry.data)
        ({ s with heap := p.1 }, XmlResult.cacheHit p.2)
      else xmlFetchAndStore s uri now fetched
    | none => xmlFetchAndStore s uri now fetched
  else xmlFetchAndStore s uri now fetched

/-- `nationRequest` (source lines 983-993): global parameter
`nation = toId(nation)`, forwarding `auth` and `disableCache` (default
`false`) to `xmlRequest`. -/
def nationRequest (s : NsState) (nation : String) (shards : List String)
    (shardParams : List (String × String)) (auth : Option Auth)
    (disableCache : Bool) (now : Int) (fetched : Option Int) :
    NsState × XmlResult :=
  xmlRequestStep s
    (apiPath s.userAgent
      (buildAllParams shards shardParams [(("nation" : String), toId nation)]))
    auth disableCache now fetched

/-- Which argument a v0.1.0 `Api` caller callback was invoked with. -/
inductive TgCallbackArg
  | errArg
  | okArg
  | protocolErrArg
deriving DecidableEq, Repr

/-- The completion handler the v0.1.0 `Api.telegramRequest` passes to
`apiRequest` (source lines 317-330): `if (err) callback(err);` — without a
`return` — followed unconditionally by the check of `data` against the
string `queued`. The list records every `callback` invocation, in order. -/
def telegramRequestCallbackCalls (err : Option String)
    (data : Option String) : List TgCallbackArg :=
  (if err.isSome then [TgCallbackArg.errArg] else []) ++
    (match data with
     | some d =>
       if d.trim.toLower = ("queued") then [TgCallbackArg.okArg]
       else [TgCallbackArg.protocolErrArg]
     | none => [TgCallbackArg.protocolErrArg])

/-- Which argument pair a v0.1.0 `Api.authenticateRequest` callback was
invoked with. -/
inductive AuthCallbackArg
  | errArg
  | okTrue
  | okFalse
  | protocolErrArg
deriving DecidableEq, Repr

/-- The completion handler the v0.1.0 `Api.authenticateRequest` passes to
`apiRequest` (source lines 357-370): again `if (err) callback(err);`
without a `return`, then the check of `data` against the strings `1` and
`0`. -/
def authenticateRequestCallbackCalls (err : Option String)
    (data : Option String) : List AuthCallbackArg :=
  (if err.isSome then [AuthCallbackArg.errArg] else []) ++
    (match data with
     | some d =>
       if d.trim = ("1") then [AuthCallbackArg.okTrue]
       else if d.trim = ("0") then [AuthCallbackArg.okFalse]
       else [AuthCallbackArg.protocolErrArg]
     | none => [AuthCallbackArg.protocolErrArg])

/-- Externally triggered events of one `NsApi` instance: submissions,
scheduler ticks in either mode, network completions and block-flag
changes. -/
inductive SchedEvent
  | submit (tg : Option TelegramType) (id : Nat)
  | tickDelay (now : Int)
  | tickNoDelay
  | respEnd (now : Int) (tg : Option TelegramType) (status : Int)
  | respError
  | setBlockExisting (b : Bool)
  | setBlockNew (b : Bool)
deriving DecidableEq, Repr

/-- Instance state together with the observable submission and dispatch
histories (ghost fields for stating ordering properties). -/
structure SysState where
  ns : NsState
  enqueued : List QueuedRequest
  dispatched : List QueuedRequest
deriving DecidableEq, Repr

/-- Apply one event, recording enqueues and dispatches. -/
def applyEvent (st : SysState) (e : SchedEvent) : SysState :=
  match e with
  | SchedEvent.submit tg id =>
    match apiRequestSubmit st.ns tg id with
    | SubmitResult.queued ns' =>
      { st with ns := ns', enqueued := st.enqueued ++ [⟨tg, id⟩] }
    | SubmitResult.rejectedSync _ => st
  | SchedEvent.tickDelay now =>
    let p := tickThrottled st.ns now
    { st with ns := p.1, dispatched := st.dispatched ++ p.2.toList }
  | SchedEvent.tickNoDelay =>
    let p := tickUnthrottled st.ns
    { st with ns := p.1, dispatched := st.dispatched ++ p.2.toList }
  | SchedEvent.respEnd now tg status =>
    { st with ns := (onResponseEnd st.ns now tg status).1 }
  | SchedEvent.respError => { st with ns := (onRequestError st.ns).1 }
  | SchedEvent.setBlockExisting b =>
    { st with ns := { st.ns with blockExistingRequests := b } }
  | SchedEvent.setBlockNew b =>
    { st with ns := { st.ns with blockNewRequests := b } }

/-- Run an event sequence. -/
def runEvents (st : SysState) (es : List SchedEvent) : SysState :=
  es.foldl applyEvent st

/-- A freshly constructed system: empty queue, empty histories. -/
def initSys : SysState := { ns := initState, enqueued := [], dispatched := [] }


lemma execCond_eq_true_iff (s : NsState) (now : Int) (req : QueuedRequest) :
    execCond s now req = true ↔
      now - s.lastRequestTime > s.apiDelayMillis ∧
      (req.tg = some TelegramType.Recruitment →
        now - s.lastTgTime > s.recruitTgDelayMillis) ∧
      (req.tg = some TelegramType.NonRecruitment →
        now - s.lastTgTime > s.nonRecruitTgDelayMillis) := by
  unfold execCond
  by_cases h1 : now - s.lastRequestTime > s.apiDelayMillis
  · rcases htg : req.tg with _ | t
    · simp [h1, htg]
    · cases t <;> simp [h1, htg]
  · simp [h1]

/-- C1: in throttled mode the head of the queue is dispatched exactly when
no request is in progress, existing requests are not blocked, the general
floor `now - lastRequestTime > apiDelayMillis` holds, and — for a
recruitment (resp. non-recruitment) telegram head — the shared telegram
timestamp satisfies `now - lastTgTime > recruitTgDelayMillis`
(resp. `> nonRecruitTgDelayMillis`); and the completion of a telegram of
either type stamps that single shared telegram timestamp. -/
theorem throttled_dispatch_conditions (s : NsState) (now : Int)
    (r : QueuedRequest) :
    ((tickThrottled s now).2 = some r ↔
      s.requestInProgress = false ∧ s.blockExistingRequests = false ∧
      (∃ rest, s.queue = r :: rest) ∧
      now - s.lastRequestTime > s.apiDelayMillis ∧
      (r.tg = some TelegramType.Recruitment →
        now - s.lastTgTime > s.recruitTgDelayMillis) ∧
      (r.tg = some TelegramType.NonRecruitment →
        now - s.lastTgTime > s.nonRecruitTgDelayMillis)) ∧
    (∀ (tg : Option TelegramType) (status : Int), tg ≠ none →
      (onResponseEnd s now tg status).1.lastTgTime = now) := by
  constructor
  · unfold tickThrottled
    by_cases hg : s.requestInProgress = true ∨ s.queue = [] ∨
        s.blockExistingRequests = true
    · rw [if_pos hg]
      constructor
      · intro h; simp at h
      · rintro ⟨h1, h2, ⟨rest, hq⟩, -⟩
        exfalso
        rcases hg with hg | hg | hg
        · rw [h1] at hg; exact Bool.false_ne_true hg
        · rw [hq] at hg; exact List.cons_ne_nil r rest hg
        · rw [h2] at hg; exact Bool.false_ne_true hg
    · rw [if_neg hg]
      rw [not_or, not_or] at hg
      obtain ⟨hip, hnil, hbl⟩ := hg
      rcases hq : s.queue with _ | ⟨nx, rest⟩
      · exact absurd hq hnil
      · dsimp only
        by_cases he : execCond s now nx = true
        · rw [if_pos he]
          constructor
          · intro h
            have hnr : nx = r := by simpa using h
            subst hnr
            obtain ⟨ht, htr, htn⟩ := (execCond_eq_true_iff s now nx).mp he
            exact ⟨(by simpa using hip), (by simpa using hbl),
              ⟨rest, rfl⟩, ht, htr, htn⟩
          · rintro ⟨-, -, ⟨rest', hq'⟩, -⟩
            have hnr : nx = r := (List.cons_eq_cons.mp hq').1
            simp [hnr]
        · rw [if_neg he]
          constructor
          · intro h; simp at h
          · rintro ⟨-, -, ⟨rest', hq'⟩, ht, htr, htn⟩
            exfalso
            have hnr : nx = r := (List.cons_eq_cons.mp hq').1
            apply he
            exact (execCond_eq_true_iff s now nx).mpr
              ⟨ht, by rw [hnr]; exact htr, by rw [hnr]; exact htn⟩
  · intro tg status htg
    rcases tg with _ | t
    · exact absurd rfl htg
    · unfold onResponseEnd
      split
      next h => split <;> rfl
      next h => exact absurd (by simp) h

/-- Concrete state used to witness the dispatch-condition theorem: one
recruitment telegram queued, both timestamps at 0. -/
def c1State : NsState :=
  { initState with queue := [⟨some TelegramType.Recruitment, 0⟩] }

theorem throttled_dispatch_conditions_witness :
    (tickThrottled c1State 200001).2 =
      some ⟨some TelegramType.Recruitment, 0⟩ ∧
    (onResponseEnd c1State 200001 (some TelegramType.Recruitment) 200).1.lastTgTime
      = 200001 := by
  constructor
  · exact ((throttled_dispatch_conditions c1State 200001
        ⟨some TelegramType.Recruitment, 0⟩).1).mpr
      ⟨rfl, rfl, ⟨[], rfl⟩, by decide, fun _ => by decide, fun h => by simp at h⟩
  · exact (throttled_dispatch_conditions c1State 200001
        ⟨some TelegramType.Recruitment, 0⟩).2
      (some TelegramType.Recruitment) 200 (Option.some_ne_none _)

lemma tickThrottled_queue_cases (s : NsState) (now : Int) :
    ((tickThrottled s now).1.queue = s.queue ∧ (tickThrottled s now).2 = none) ∨
    (∃ r rest, s.queue = r :: rest ∧ (tickThrottled s now).1.queue = rest ∧
      (tickThrottled s now).2 = some r) := by
  unfold tickThrottled
  by_cases hg : s.requestInProgress = true ∨ s.queue = [] ∨
      s.blockExistingRequests = true
  · rw [if_pos hg]; exact Or.inl ⟨rfl, rfl⟩
  · rw [if_neg hg]
    rcases hq : s.queue with _ | ⟨nx, rest⟩
    · exact Or.inl ⟨hq, rfl⟩
    · dsimp only
      by_cases he : execCond s now nx = true
      · rw [if_pos he]
        exact Or.inr ⟨nx, rest, rfl, rfl, rfl⟩
      · rw [if_neg he]
        exact Or.inl ⟨hq, rfl⟩

lemma tickUnthrottled_queue_cases (s : NsState) :
    ((tickUnthrottled s).1.queue = s.queue ∧ (tickUnthrottled s).2 = none) ∨
    (∃ r rest, s.queue = r :: rest ∧ (tickUnthrottled s).1.queue = rest ∧
      (tickUnthrottled s).2 = some r) := by
  unfold tickUnthrottled
  by_cases hg : s.queue = [] ∨ s.blockExistingRequests = true
  · rw [if_pos hg]; exact Or.inl ⟨rfl, rfl⟩
  · rw [if_neg hg]
    rcases hq : s.queue with _ | ⟨nx, rest⟩
    · exact Or.inl ⟨hq, rfl⟩
    · exact Or.inr ⟨nx, rest, rfl, rfl, rfl⟩

lemma apiRequestSubmit_cases (s : NsState) (tg : Option TelegramType)
    (id : Nat) :
    (∃ r, apiRequestSubmit s tg id = SubmitResult.rejectedSync r) ∨
    apiRequestSubmit s tg id =
      SubmitResult.queued { s with queue := s.queue ++ [⟨tg, id⟩] } := by
  unfold apiRequestSubmit
  split
  · exact Or.inl ⟨_, rfl⟩
  · split
    · exact Or.inl ⟨_, rfl⟩
    · exact Or.inr rfl

lemma onResponseEnd_queue (s : NsState) (now : Int) (tg : Option TelegramType)
    (status : Int) :
    (onResponseEnd s now tg status).1.queue = s.queue := by
  unfold onResponseEnd
  by_cases h1 : tg.isSome = true <;> by_cases h2 : status = 200 <;>
    simp [h1, h2]

/-- The submission/dispatch-order invariant: the dispatch history followed
by the pending queue is exactly the submission history. -/
def FifoInv (st : SysState) : Prop :=
  st.dispatched ++ st.ns.queue = st.enqueued

lemma applyEvent_fifo (st : SysState) (e : SchedEvent) (h : FifoInv st) :
    FifoInv (applyEvent st e) := by
  unfold FifoInv at *
  cases e with
  | submit tg id =>
    simp only [applyEvent]
    rcases apiRequestSubmit_cases st.ns tg id with ⟨r, hr⟩ | hr <;>
      · rw [hr]
        simp [← List.append_assoc, h]
  | tickDelay now =>
    simp only [applyEvent]
    rcases tickThrottled_queue_cases st.ns now with ⟨h1, h2⟩ |
        ⟨r, rest, hq, h1, h2⟩
    · simp [h1, h2, h]
    · rw [hq] at h
      simp only [h2, h1]
      simpa [List.append_assoc] using h
  | tickNoDelay =>
    simp only [applyEvent]
    rcases tickUnthrottled_queue_cases st.ns with ⟨h1, h2⟩ |
        ⟨r, rest, hq, h1, h2⟩
    · simp [h1, h2, h]
    · rw [hq] at h
      simp only [h2, h1]
      simpa [List.append_assoc] using h
  | respEnd now tg status =>
    simp only [applyEvent]
    simpa [onResponseEnd_queue] using h
  | respError =>
    simp only [applyEvent, onRequestError]
    simpa using h
  | setBlockExisting b =>
    simp only [applyEvent]
    simpa using h
  | setBlockNew b =>
    simp only [applyEvent]
    simpa using h

/-- C2: over every event sequence (submissions of any category mix,
throttled or unthrottled ticks, completions, block-flag changes) the
dispatch history followed by the pending queue equals the submission
history — dispatch order is submission order; moreover every tick either
leaves the queue unchanged (a blocked head stays in place) or pops exactly
the head. -/
theorem fifo_dispatch_order :
    (∀ es : List SchedEvent,
      (runEvents initSys es).dispatched ++ (runEvents initSys es).ns.queue =
        (runEvents initSys es).enqueued) ∧
    (∀ (s : NsState) (now : Int),
      ((tickThrottled s now).1.queue = s.queue ∧
        (tickThrottled s now).2 = none) ∨
      (∃ r rest, s.queue = r :: rest ∧ (tickThrottled s now).1.queue = rest ∧
        (tickThrottled s now).2 = some r)) := by
  constructor
  · intro es
    have main : ∀ (l : List SchedEvent) (st : SysState), FifoInv st →
        FifoInv (runEvents st l) := by
      intro l
      induction l with
      | nil => intro st h; exact h
      | cons e tl ih =>
        intro st h
        exact ih (applyEvent st e) (applyEvent_fifo st e h)
    exact main es initSys rfl
  · exact tickThrottled_queue_cases

/-- State right after the throttled scheduler dispatched a request: the
in-progress flag was set by the tick, and another plain request is still
queued behind it. -/
def c3State : NsState :=
  { initState with requestInProgress := true, queue := [⟨none, 1⟩] }

/-- C3: the `end` handler of a failed (non-200) response does clear the
in-progress flag, but the connection-error handler is bare `reject`: it
leaves `_requestInProgress` set and the timestamps untouched, after which
no throttled tick can ever dispatch the queued request again. -/
theorem error_path_poisons_scheduler :
    (onRequestError c3State).1.requestInProgress = true ∧
    (onRequestError c3State).1.lastRequestTime = c3State.lastRequestTime ∧
    (onRequestError c3State).2 =
      ReqOutcome.rejected RejectReason.transportError ∧
    (∀ now : Int, (tickThrottled (onRequestError c3State).1 now).2 = none) ∧
    (∀ (now status : Int) (tg : Option TelegramType),
      (onResponseEnd c3State now tg status).1.requestInProgress = false) := by
  refine ⟨rfl, rfl, rfl, ?_, ?_⟩
  · intro now
    rfl
  · intro now status tg
    unfold onResponseEnd
    by_cases h1 : tg.isSome = true <;> by_cases h2 : status = 200 <;>
      simp [h1, h2]

/-- C4: after `cleanup` the queue is empty, the interval is stopped, the
cleanup flag is set, every request that was queued at that moment has its
completion rejected with the cancellation error, and every subsequent
submission is synchronously rejected. -/
theorem cleanup_shutdown (s : NsState) :
    (cleanup s).1.queue = [] ∧
    (cleanup s).1.intervalActive = false ∧
    (cleanup s).1.cleanupCalled = true ∧
    (∀ r ∈ s.queue,
      (r.id, RejectReason.cancelledClearQueue) ∈ (cleanup s).2) ∧
    (∀ (tg : Option TelegramType) (id : Nat), ∃ rr,
      apiRequestSubmit (cleanup s).1 tg id = SubmitResult.rejectedSync rr) := by
  refine ⟨rfl, rfl, rfl, ?_, ?_⟩
  · intro r hr
    show (r.id, RejectReason.cancelledClearQueue) ∈
      s.queue.reverse.map (fun q => (q.id, RejectReason.cancelledClearQueue))
    exact List.mem_map.mpr ⟨r, List.mem_reverse.mpr hr, rfl⟩
  · intro tg id
    unfold apiRequestSubmit
    by_cases hb : (cleanup s).1.blockNewRequests = true
    · rw [if_pos hb]; exact ⟨_, rfl⟩
    · rw [if_neg hb]
      rw [if_pos (show (cleanup s).1.cleanupCalled = true from rfl)]
      exact ⟨_, rfl⟩

/-- Instance with two requests queued, used to witness the cleanup
theorem. -/
def c4State : NsState :=
  { initState with queue := [⟨none, 0⟩, ⟨some TelegramType.Recruitment, 1⟩] }

theorem cleanup_shutdown_witness :
    (cleanup c4State).1.queue = [] ∧
    ((0 : Nat), RejectReason.cancelledClearQueue) ∈ (cleanup c4State).2 ∧
    ((1 : Nat), RejectReason.cancelledClearQueue) ∈ (cleanup c4State).2 ∧
    (∃ rr, apiRequestSubmit (cleanup c4State).1 none 2 =
      SubmitResult.rejectedSync rr) := by
  refine ⟨(cleanup_shutdown c4State).1, ?_, ?_, ?_⟩
  · exact (cleanup_shutdown c4State).2.2.2.1 ⟨none, 0⟩ (by decide)
  · exact (cleanup_shutdown c4State).2.2.2.1 ⟨some TelegramType.Recruitment, 1⟩
      (by decide)
  · exact (cleanup_shutdown c4State).2.2.2.2 none 2

/-- C5: on the error path of the v0.1.0 `Api.telegramRequest` and
`Api.authenticateRequest` (the underlying request failed, so `err` is set
and `data` is undefined), the caller callback is invoked twice — once with
the error and once more with the protocol error — because the `if (err)`
branch does not return (contrast `parseXml` of v0.2.0, which uses
`return reject(err)`). -/
theorem callback_double_invocation_on_error :
    (telegramRequestCallbackCalls (some ("connect ECONNREFUSED")) none) =
      [TgCallbackArg.errArg, TgCallbackArg.protocolErrArg] ∧
    (telegramRequestCallbackCalls (some ("connect ECONNREFUSED"))
      none).length = 2 ∧
    (authenticateRequestCallbackCalls (some ("connect ECONNREFUSED")) none) =
      [AuthCallbackArg.errArg, AuthCallbackArg.protocolErrArg] ∧
    (authenticateRequestCallbackCalls (some ("connect ECONNREFUSED"))
      none).length = 2 := by
  exact ⟨rfl, rfl, rfl, rfl⟩

lemma cacheLookup_store (c : List (String × CacheEntry)) (uri : String)
    (e : CacheEntry) :
    cacheLookup (cacheStore c uri e) uri = some e := by
  unfold cacheLookup cacheStore
  simp [List.find?]

/-- Auth object used in the cache counterexamples. -/
def c6Auth : Auth := { password := some ("hunter2") }

/-- Instance whose cache holds a fresh entry for uri `u` (stored at time
0, payload in heap cell 0, value 42). -/
def c6StateHit : NsState :=
  { initState with cache := [(("u"), ⟨0, 0⟩)], heap := [42] }

/-- C6 counterexample: a request carrying an `Auth` object, with caching
enabled and `disableCache` left at its default `false`, is served from the
cache when a fresh entry exists (first two conjuncts), and on a miss its
result is stored in the cache (third conjunct) — the cache logic of
`xmlRequest` never looks at `auth`. -/
theorem auth_request_uses_cache :
    (xmlRequestStep c6StateHit ("u") (some c6Auth) false 1000 (some 99)).2 =
      XmlResult.cacheHit 1 ∧
    heapGet
      (xmlRequestStep c6StateHit ("u") (some c6Auth) false 1000
        (some 99)).1.heap 1 = 42 ∧
    cacheLookup
      (xmlRequestStep initState ("u") (some c6Auth) false 0 (some 5)).1.cache
      ("u") = some ⟨0, 0⟩ := by
  exact ⟨rfl, rfl, rfl⟩

/-- C6 amended: whether the cache is consulted or written depends only on
`cacheApiRequests` and `disableCache`, never on the auth data — the
behaviour of `xmlRequest` is identical for any two auth arguments,
whenever `cacheApiRequests` is set a fetched result is stored under its
uri, and passing `disableCache = true` only skips the lookup: the request
still goes through the same fetch-and-store tail. -/
theorem cache_independent_of_auth :
    (∀ (s : NsState) (uri : String) (a1 a2 : Option Auth) (dc : Bool)
      (now : Int) (fetched : Option Int),
      xmlRequestStep s uri a1 dc now fetched =
        xmlRequestStep s uri a2 dc now fetched) ∧
    (∀ (s : NsState) (uri : String) (now v : Int),
      s.cacheApiRequests = true →
      cacheLookup (xmlFetchAndStore s uri now (some v)).1.cache uri =
        some ⟨now, s.heap.length⟩) ∧
    (∀ (s : NsState) (uri : String) (auth : Option Auth) (now : Int)
      (fetched : Option Int),
      xmlRequestStep s uri auth true now fetched =
        xmlFetchAndStore s uri now fetched) := by
  refine ⟨?_, ?_, ?_⟩
  · intro s uri a1 a2 dc now fetched
    rfl
  · intro s uri now v hc
    unfold xmlFetchAndStore heapAlloc
    dsimp only
    rw [if_pos (show s.cacheApiRequests = true from hc)]
    exact cacheLookup_store _ uri ⟨now, s.heap.length⟩
  · intro s uri auth now fetched
    unfold xmlRequestStep
    rw [if_neg (by simp)]

theorem cache_independent_of_auth_witness :
    xmlRequestStep initState ("u") (some c6Auth) false 0 (some 5) =
      xmlRequestStep initState ("u") none false 0 (some 5) ∧
    cacheLookup (xmlFetchAndStore initState ("u") 0 (some 5)).1.cache ("u") =
      some ⟨0, 0⟩ := by
  constructor
  · exact cache_independent_of_auth.1 initState ("u") (some c6Auth) none false
      0 (some 5)
  · have h := cache_independent_of_auth.2.1 initState ("u") 0 5 rfl
    simpa using h

lemma sortStrings_perm_eq {l1 l2 : List String} (h : l1.Perm l2) :
    sortStrings l1 = sortStrings l2 := by
  exact List.eq_of_perm_of_sorted
    (((List.perm_insertionSort (fun a b : String => a ≤ b) l1).trans h).trans
      (List.perm_insertionSort (fun a b : String => a ≤ b) l2).symm)
    (List.sorted_insertionSort (fun a b : String => a ≤ b) l1)
    (List.sorted_insertionSort (fun a b : String => a ≤ b) l2)

/-- C7 counterexample: the same shard-parameter set `{a: 1, b: 2}` supplied
in two insertion orders yields two different query strings — `xmlRequest`
sorts the shards and the global parameter keys, but appends
`shardParams` in object-key insertion order — so the two logically
identical requests get different cache keys. -/
theorem shardparam_order_changes_key :
    buildAllParams [("x")] [(("a"), ("1")), (("b"), ("2"))]
        [(("nation"), ("testlandia"))] ≠
      buildAllParams [("x")] [(("b"), ("2")), (("a"), ("1"))]
        [(("nation"), ("testlandia"))] := by
  decide

lemma listLookup_perm {l1 l2 : List (String × String)} (h : l1.Perm l2)
    (hnd : (l1.map Prod.fst).Nodup) (k : String) :
    listLookup l1 k = listLookup l2 k := by
  unfold listLookup
  by_cases hex : ∃ x ∈ l1, x.1 = k
  · obtain ⟨x, hx, hxk⟩ := hex
    have h1 : (l1.find? (fun p => p.1 == k)).isSome :=
      List.find?_isSome.mpr ⟨x, hx, by simpa using hxk⟩
    have h2 : (l2.find? (fun p => p.1 == k)).isSome :=
      List.find?_isSome.mpr ⟨x, h.mem_iff.mp hx, by simpa using hxk⟩
    obtain ⟨p1, hp1⟩ := Option.isSome_iff_exists.mp h1
    obtain ⟨p2, hp2⟩ := Option.isSome_iff_exists.mp h2
    have e1 : p1 ∈ l1 := List.mem_of_find?_eq_some hp1
    have e2 : p2 ∈ l1 := h.mem_iff.mpr (List.mem_of_find?_eq_some hp2)
    have k1 : p1.1 = k := by simpa using List.find?_some hp1
    have k2 : p2.1 = k := by simpa using List.find?_some hp2
    have hp12 : p1 = p2 :=
      List.inj_on_of_nodup_map hnd e1 e2 (by rw [k1, k2])
    rw [hp1, hp2, hp12]
  · push_neg at hex
    have n1 : l1.find? (fun p => p.1 == k) = none :=
      List.find?_eq_none.mpr (fun x hx => by simpa using hex x hx)
    have n2 : l2.find? (fun p => p.1 == k) = none :=
      List.find?_eq_none.mpr
        (fun x hx => by simpa using hex x (h.mem_iff.mpr hx))
    rw [n1, n2]

/-- C7 amended: the query string (hence the cache key) is a pure function
of the sorted shard list, the shard-parameter list in insertion order, the
sorted global-parameter set and the API version: reordering the shards, or
reordering the (distinct-keyed) global parameters, never changes it —
while the counterexample shows shard-parameter insertion order does. -/
theorem fingerprint_shard_order_invariant :
    (∀ (shards1 shards2 : List String) (sp gp : List (String × String)),
      shards1.Perm shards2 →
      buildAllParams shards1 sp gp = buildAllParams shards2 sp gp) ∧
    (∀ (shards : List String) (sp gp1 gp2 : List (String × String)),
      gp1.Perm gp2 → (gp1.map Prod.fst).Nodup →
      buildAllParams shards sp gp1 = buildAllParams shards sp gp2) := by
  constructor
  · intro shards1 shards2 sp gp h
    unfold buildAllParams
    have hs : sortStrings shards1 = sortStrings shards2 :=
      sortStrings_perm_eq h
    have hlen : shards2.length = shards1.length := h.length_eq.symm
    by_cases h1 : shards1.length ≠ 0
    · rw [if_pos h1, if_pos (by rw [hlen]; exact h1), hs]
    · rw [if_neg h1, if_neg (by rw [hlen]; exact h1)]
  · intro shards sp gp1 gp2 h hnd
    unfold buildAllParams
    have hkeys : sortStrings (gp1.map Prod.fst) =
        sortStrings (gp2.map Prod.fst) :=
      sortStrings_perm_eq (h.map Prod.fst)
    have hlk : ∀ n, listLookup gp1 n = listLookup gp2 n :=
      fun n => listLookup_perm h hnd n
    rw [hkeys]
    simp only [hlk]

theorem fingerprint_shard_order_invariant_witness :
    (buildAllParams [("b"), ("a")] [(("p"), ("1"))]
        [(("nation"), ("testlandia"))] =
      buildAllParams [("a"), ("b")] [(("p"), ("1"))]
        [(("nation"), ("testlandia"))]) ∧
    (buildAllParams [("x")] [] [(("wa"), ("1")), (("q2"), ("2"))] =
      buildAllParams [("x")] [] [(("q2"), ("2")), (("wa"), ("1"))]) := by
  constructor
  · exact fingerprint_shard_order_invariant.1 [("b"), ("a")] [("a"), ("b")]
      [(("p"), ("1"))] [(("nation"), ("testlandia"))] (by decide)
  · exact fingerprint_shard_order_invariant.2 [("x")] []
      [(("wa"), ("1")), (("q2"), ("2"))] [(("q2"), ("2")), (("wa"), ("1"))]
      (by decide) (by decide)


lemma heapGet_alloc (h : List Int) (v : Int) :
    heapGet (h ++ [v]) h.length = v := by
  unfold heapGet
  rw [List.getD_append_right h [v] 0 h.length (Nat.le_refl _)]
  simp

lemma heapGet_append_left (h : List Int) (v : Int) (j : Nat)
    (hj : j < h.length) :
    heapGet (h ++ [v]) j = heapGet h j := by
  unfold heapGet
  exact List.getD_append h [v] 0 j hj

lemma heapGet_set_ne (h : List Int) (i j : Nat) (v : Int) (hne : i ≠ j) :
    heapGet (heapSet h i v) j = heapGet h j := by
  unfold heapGet heapSet
  simp only [List.getD_eq_getElem?_getD, List.getElem?_set_ne hne]

/-- First call: a miss that fetches payload value 42, stores the reference
in the cache and hands the *same* reference (cell 0) to the caller. -/
def c8Step1 : NsState × XmlResult :=
  xmlRequestStep initState ("u") none false 0 (some 42)

/-- The caller that populated the cache mutates the object it received
(cell 0) from 42 to 7. -/
def c8Mutated : NsState :=
  { c8Step1.1 with heap := heapSet c8Step1.1.heap 0 7 }

/-- Second call within the validity window. -/
def c8Step2 : NsState × XmlResult :=
  xmlRequestStep c8Mutated ("u") none false 1000 (some 99)

/-- C8 counterexample: the payload is *not* deep-copied on store — the
first caller keeps the cached reference, and after it mutates its result
from 42 to 7 a later lookup of the same fingerprint returns 7, not the
originally stored 42. -/
theorem mutation_reaches_cache :
    c8Step1.2 = XmlResult.fetchedOk 0 ∧
    heapGet c8Step1.1.heap 0 = 42 ∧
    c8Step2.2 = XmlResult.cacheHit 1 ∧
    heapGet c8Step2.1.heap 1 = 7 ∧
    ¬ heapGet c8Step2.1.heap 1 = 42 := by
  exact ⟨rfl, rfl, rfl, rfl, by decide⟩

/-- C8 amended: within the validity window a lookup returns a freshly
allocated copy of the cached payload — deep-equal to the entry's current
value and not reference-equal to the cached cell — and mutating that copy
leaves the cached cell unchanged; only the reference handed out when the
entry was stored aliases the cache (no copy on store, see the
counterexample). -/
theorem cache_clone_on_lookup (s : NsState) (uri : String)
    (auth : Option Auth) (now : Int) (fetched : Option Int) (e : CacheEntry)
    (hl : cacheLookup s.cache uri = some e)
    (hfresh : (now - e.time) / 1000 < s.cacheTime)
    (hc : s.cacheApiRequests = true)
    (href : e.data < s.heap.length) :
    (xmlRequestStep s uri auth false now fetched).2 =
      XmlResult.cacheHit s.heap.length ∧
    s.heap.length ≠ e.data ∧
    heapGet (xmlRequestStep s uri auth false now fetched).1.heap
      s.heap.length = heapGet s.heap e.data ∧
    (∀ v, heapGet
      (heapSet (xmlRequestStep s uri auth false now fetched).1.heap
        s.heap.length v) e.data = heapGet s.heap e.data) := by
  have hstep : xmlRequestStep s uri auth false now fetched =
      ({ s with heap := s.heap ++ [heapGet s.heap e.data] },
        XmlResult.cacheHit s.heap.length) := by
    unfold xmlRequestStep
    rw [if_pos ⟨hc, rfl⟩, hl]
    dsimp only
    rw [if_pos hfresh]
    rfl
  refine ⟨by rw [hstep], Nat.ne_of_gt href, ?_, ?_⟩
  · rw [hstep]
    exact heapGet_alloc s.heap (heapGet s.heap e.data)
  · intro v
    rw [hstep]
    dsimp only
    rw [heapGet_set_ne _ _ _ _ (Nat.ne_of_gt href)]
    exact heapGet_append_left s.heap _ e.data href

theorem cache_clone_on_lookup_witness :
    (xmlRequestStep c6StateHit ("u") none false 1000 (some 99)).2 =
      XmlResult.cacheHit 1 ∧
    heapGet (xmlRequestStep c6StateHit ("u") none false 1000
      (some 99)).1.heap 1 = heapGet c6StateHit.heap 0 ∧
    heapGet (heapSet (xmlRequestStep c6StateHit ("u") none false 1000
      (some 99)).1.heap 1 5) 0 = heapGet c6StateHit.heap 0 := by
  have h := cache_clone_on_lookup c6StateHit ("u") none 1000 (some 99)
    ⟨0, 0⟩ rfl (by decide) rfl (by decide)
  exact ⟨h.1, h.2.2.1, h.2.2.2 5⟩

/-- C9: each configuration setter raises its `RangeError` exactly when the
argument violates its minimum bound — `apiDelayMillis` below 600,
`nonRecruitTgDelayMillis` below 60000, `recruitTgDelayMillis` below
180000, `cacheTime` not above 0 — synchronously, before any assignment;
on success exactly the one field is assigned. -/
theorem setter_range_validation (s : NsState) (v : Int) :
    ((∃ e, setApiDelayMillis s v = Except.error e) ↔ v < 600) ∧
    (∀ s', setApiDelayMillis s v = Except.ok s' →
      s' = { s with apiDelayMillis := v }) ∧
    ((∃ e, setNonRecruitTgDelayMillis s v = Except.error e) ↔ v < 60000) ∧
    (∀ s', setNonRecruitTgDelayMillis s v = Except.ok s' →
      s' = { s with nonRecruitTgDelayMillis := v }) ∧
    ((∃ e, setRecruitTgDelayMillis s v = Except.error e) ↔ v < 180000) ∧
    (∀ s', setRecruitTgDelayMillis s v = Except.ok s' →
      s' = { s with recruitTgDelayMillis := v }) ∧
    ((∃ e, setCacheTime s v = Except.error e) ↔ v ≤ 0) ∧
    (∀ s', setCacheTime s v = Except.ok s' →
      s' = { s with cacheTime := v }) := by
  refine ⟨⟨?_, ?_⟩, ?_, ⟨?_, ?_⟩, ?_, ⟨?_, ?_⟩, ?_, ⟨?_, ?_⟩, ?_⟩
  · rintro ⟨e, he⟩
    by_contra hv
    simp [setApiDelayMillis, hv] at he
  · intro hv
    exact ⟨("API delay must be greater than or equal to 600"),
      by simp [setApiDelayMillis, hv]⟩
  · intro s' h
    by_cases hv : v < 600
    · simp [setApiDelayMillis, hv] at h
    · simp [setApiDelayMillis, hv] at h
      exact h.symm
  · rintro ⟨e, he⟩
    by_contra hv
    simp [setNonRecruitTgDelayMillis, hv] at he
  · intro hv
    exact ⟨("Non-recruitment telegram delay must be greater than or equal to 60000"),
      by simp [setNonRecruitTgDelayMillis, hv]⟩
  · intro s' h
    by_cases hv : v < 60000
    · simp [setNonRecruitTgDelayMillis, hv] at h
    · simp [setNonRecruitTgDelayMillis, hv] at h
      exact h.symm
  · rintro ⟨e, he⟩
    by_contra hv
    simp [setRecruitTgDelayMillis, hv] at he
  · intro hv
    exact ⟨("Recruitment telegram delay must be greater than or equal to 180000"),
      by simp [setRecruitTgDelayMillis, hv]⟩
  · intro s' h
    by_cases hv : v < 180000
    · simp [setRecruitTgDelayMillis, hv] at h
    · simp [setRecruitTgDelayMillis, hv] at h
      exact h.symm
  · rintro ⟨e, he⟩
    by_contra hv
    simp [setCacheTime, hv] at he
  · intro hv
    exact ⟨("Cache time must be greater than 0"),
      by simp [setCacheTime, hv]⟩
  · intro s' h
    by_cases hv : v ≤ 0
    · simp [setCacheTime, hv] at h
    · simp [setCacheTime, hv] at h
      exact h.symm

theorem setter_range_validation_witness :
    (∃ e, setApiDelayMillis initState 599 = Except.error e) ∧
    (∃ e, setNonRecruitTgDelayMillis initState 59999 = Except.error e) ∧
    (∃ e, setRecruitTgDelayMillis initState 179999 = Except.error e) ∧
    (∃ e, setCacheTime initState 0 = Except.error e) ∧
    (∀ s', setApiDelayMillis initState 600 = Except.ok s' →
      s' = { initState with apiDelayMillis := 600 }) := by
  refine ⟨?_, ?_, ?_, ?_, ?_⟩
  · exact (setter_range_validation initState 599).1.mpr (by decide)
  · exact (setter_range_validation initState 59999).2.2.1.mpr (by decide)
  · exact (setter_range_validation initState 179999).2.2.2.2.1.mpr (by decide)
  · exact (setter_range_validation initState 0).2.2.2.2.2.2.1.mpr (by decide)
  · exact (setter_range_validation initState 600).2.1

lemma setApiDelayMillis_ok_tg (s : NsState) (v : Int) (s' : NsState)
    (h : setApiDelayMillis s v = Except.ok s') :
    s'.recruitTgDelayMillis = s.recruitTgDelayMillis ∧
    s'.nonRecruitTgDelayMillis = s.nonRecruitTgDelayMillis := by
  unfold setApiDelayMillis at h
  by_cases hv : v < 600
  · rw [if_pos hv] at h; cases h
  · rw [if_neg hv] at h; cases h; exact ⟨rfl, rfl⟩

lemma setCacheTime_ok_tg (s : NsState) (v : Int) (s' : NsState)
    (h : setCacheTime s v = Except.ok s') :
    s'.recruitTgDelayMillis = s.recruitTgDelayMillis ∧
    s'.nonRecruitTgDelayMillis = s.nonRecruitTgDelayMillis := by
  unfold setCacheTime at h
  by_cases hv : v ≤ 0
  · rw [if_pos hv] at h; cases h
  · rw [if_neg hv] at h; cases h; exact ⟨rfl, rfl⟩

lemma applyOpt_ok_tg (f : NsState → Int → Except String NsState)
    (hf : ∀ (s : NsState) (v : Int) (s' : NsState), f s v = Except.ok s' →
      s'.recruitTgDelayMillis = s.recruitTgDelayMillis ∧
      s'.nonRecruitTgDelayMillis = s.nonRecruitTgDelayMillis)
    (o : Option Int) (s s' : NsState) (h : applyOpt f o s = Except.ok s') :
    s'.recruitTgDelayMillis = s.recruitTgDelayMillis ∧
    s'.nonRecruitTgDelayMillis = s.nonRecruitTgDelayMillis := by
  cases o with
  | none =>
    have hss : s = s' := Except.ok.inj h
    subst hss; exact ⟨rfl, rfl⟩
  | some v => exact hf s v s' h

lemma constructorBase_tg (ua : String) (opts : NsApiOptions) :
    (constructorBase ua opts).recruitTgDelayMillis = 60000 ∧
    (constructorBase ua opts).nonRecruitTgDelayMillis = 180000 := by
  unfold constructorBase
  rcases opts.delay with _ | d <;> exact ⟨rfl, rfl⟩

lemma constructorFinish_ok_tg (opts : NsApiOptions) (now : Int)
    (s4 st : NsState) (h : constructorFinish opts now s4 = Except.ok st) :
    st.recruitTgDelayMillis = s4.recruitTgDelayMillis ∧
    st.nonRecruitTgDelayMillis = s4.nonRecruitTgDelayMillis := by
  unfold constructorFinish at h
  have := applyOpt_ok_tg setCacheTime setCacheTime_ok_tg opts.cacheTime _ st h
  rcases hcb : opts.cacheApiRequests with _ | b <;> rw [hcb] at this <;>
    simpa [setCacheApiRequests, initInterval] using this

/-- C10: an instance constructed with options specifying neither telegram
delay keeps the field-initializer values — `recruitTgDelayMillis = 60000`
and `nonRecruitTgDelayMillis = 180000`, swapped relative to the documented
defaults — so the default recruitment delay is itself below the 180000
minimum that the `recruitTgDelayMillis` setter enforces. -/
theorem default_tg_delays_swapped (ua : String) (opts : NsApiOptions)
    (now : Int) (st : NsState)
    (h1 : opts.recruitTgDelayMillis = none)
    (h2 : opts.nonRecruitTgDelayMillis = none)
    (h3 : NsApiNew ua opts now = Except.ok st) :
    st.recruitTgDelayMillis = 60000 ∧ st.nonRecruitTgDelayMillis = 180000 ∧
    (∃ e, setRecruitTgDelayMillis st st.recruitTgDelayMillis =
      Except.error e) := by
  unfold NsApiNew at h3
  rw [h1, h2] at h3
  split at h3
  · exact Except.noConfusion h3
  · rename_i s2 hA
    split at h3
    · exact Except.noConfusion h3
    · rename_i s3 hB
      split at h3
      · exact Except.noConfusion h3
      · rename_i s4 hC
        have e2 := applyOpt_ok_tg setApiDelayMillis setApiDelayMillis_ok_tg
          opts.apiDelayMillis _ s2 hA
        have e3 : s2 = s3 := Except.ok.inj hB
        have e4 : s3 = s4 := Except.ok.inj hC
        have efin := constructorFinish_ok_tg opts now s4 st h3
        obtain ⟨eb1, eb2⟩ := constructorBase_tg ua opts
        have hr : st.recruitTgDelayMillis = 60000 := by
          rw [efin.1, ← e4, ← e3, e2.1, eb1]
        have hn : st.nonRecruitTgDelayMillis = 180000 := by
          rw [efin.2, ← e4, ← e3, e2.2, eb2]
        refine ⟨hr, hn, ?_⟩
        rw [hr]
        exact ⟨("Recruitment telegram delay must be greater than or equal to 180000"),
          by simp [setRecruitTgDelayMillis]⟩

/-- The empty options object (every field left undefined). -/
def optsNone : NsApiOptions := {}

theorem default_tg_delays_swapped_witness :
    ∃ st, NsApiNew ("Testlandia") optsNone 0 = Except.ok st ∧
      st.recruitTgDelayMillis = 60000 ∧ st.nonRecruitTgDelayMillis = 180000 ∧
      (∃ e, setRecruitTgDelayMillis st st.recruitTgDelayMillis =
        Except.error e) := by
  obtain ⟨st, hst⟩ : ∃ st, NsApiNew ("Testlandia") optsNone 0 =
      Except.ok st := ⟨_, rfl⟩
  obtain ⟨a, b, c⟩ :=
    default_tg_delays_swapped ("Testlandia") optsNone 0 st rfl rfl hst
  exact ⟨st, hst, a, b, c⟩
